import Mathlib

/-!
Shallow embedding of the tag-association transaction engine of the
DevFlowApp2025 repository (src/lib/actions/question.action.ts and
src/lib/actions/tag.action.ts), together with proofs settling the frozen
claims about it.

Modelling conventions:
* MongoDB ObjectIds are natural numbers allocated from a monotone counter
  `Store.nextId`, which also serves as a logical creation clock for
  `createdAt` fields (no claim depends on wall-clock times, only on
  identity and, potentially, creation order).
* A MongoDB session transaction stages writes that become visible only at
  `commitTransaction`; `abortTransaction`, or `endSession` on a session
  whose transaction was never committed, discards them.  Each action body
  is therefore a function from the base store to either a committed store
  (`Except.ok`) or a thrown error (`Except.error`), and the wrapper
  returns the base store unchanged in the error case.  In the source,
  `createQuestion`'s catch block has `abortTransaction` commented out, but
  `endSession` in the `finally` block ends the session with the
  transaction uncommitted, so the staged writes are discarded there as
  well; the wrapper models both entry points identically.
* Fallibility of the store itself (a create/insert/update/commit operation
  failing) is modelled for the create path by a `FailSpec` of explicit
  failure switches, one per store operation of the source.
* The counter `Tag.questions` is an `Int`, since the store's `$inc : -1`
  primitive can drive a counter below zero.
-/

namespace DevFlow

/-- A tag document: `_id`, `name`, the `questions` usage counter and a
creation stamp. -/
structure Tag where
  id : Nat
  name : String
  questions : Int
  createdAt : Nat
deriving DecidableEq, Repr

/-- A question document, restricted to the fields the engine reads or
writes plus one representative untouched counter (`views`) used to state
frame conditions. -/
structure QDoc where
  id : Nat
  title : String
  content : String
  author : Nat
  tags : List Nat
  views : Nat
deriving DecidableEq, Repr

/-- A `TagQuestion` join document: one active (tag, question) association. -/
structure TQ where
  tag : Nat
  question : Nat
deriving DecidableEq, Repr

/-- The document store: the three collections plus the id-allocation
counter. -/
structure Store where
  tags : List Tag
  questions : List QDoc
  tagQuestions : List TQ
  nextId : Nat
deriving DecidableEq, Repr

/-- The uniform action-response envelope: `\x7b success: true, data \x7d` or
`\x7b success: false, error \x7d`.  Modelled from the spec: the
error-normalizer `handleError` (src/lib/handlers/error.ts, not present
under src/) converts any thrown failure into the error envelope carrying
its message. -/
inductive Res (α : Type) where
  | ok (data : α)
  | err (message : String)
deriving DecidableEq, Repr

/-- Whether an envelope is the error variant. -/
def Res.isErr {α : Type} : Res α → Bool
  | .ok _ => false
  | .err _ => true

/-- Modelled from the spec: the request validator `action`
(src/lib/handlers/action.ts, not present under src/) checks the parameter
shape against a schema and, when `authorize` is set, requires an
authenticated session; absence of a caller identity is a precondition
failure raised before the engine body runs.  Parameter shape is enforced
here by the host type system, so only the authorization outcome is
modelled: `some msg` is a validation failure, `none` lets the body run. -/
def actionCheck (authorize : Bool) (uid : Option Nat) : Option String :=
  if authorize && uid.isNone then some "Unauthorized" else none

/-- Find a question document by id (`Question.findById`). -/
def findQ (s : Store) (qid : Nat) : Option QDoc :=
  s.questions.find? (fun q => q.id == qid)

/-- Find a tag document by id. -/
def findTag (s : Store) (tid : Nat) : Option Tag :=
  s.tags.find? (fun t => t.id == tid)

/-- Number of live join records for the pair (tagId, qid). -/
def joinCount (s : Store) (tagId qid : Nat) : Nat :=
  (s.tagQuestions.filter (fun tq => tq.tag == tagId && tq.question == qid)).length

/-- JavaScript's `toLowerCase()` on a tag name: lower-case every
character.  (Stated over the character list so that it reduces by kernel
computation.) -/
def strLower (s : String) : String :=
  ⟨s.data.map Char.toLower⟩

/-- One step of the anchored case-insensitive pattern test: a `.` in the
pattern matches any character, any other pattern character matches
case-insensitively. -/
def patMatchCI : List Char → List Char → Bool
  | [], [] => true
  | p :: ps, c :: cs =>
      (if p == '.' then true else p.toLower == c.toLower) && patMatchCI ps cs
  | _, _ => false

/-- The test `new RegExp("^" ++ name ++ "$", "i").test s` performed by the
source's tag lookup, for the fragment of patterns exercised here: the
user-supplied name is interpolated verbatim between the anchors, so a `.`
in the name acts as a wildcard.  Other regex metacharacters are not
modelled; theorems quantifying over general names assume they are absent
(`plainName` below). -/
def regexTestCI (pat s : String) : Bool :=
  patMatchCI pat.toList s.toList

/-- A name whose characters are all regex-neutral: on such names the
interpolated pattern behaves as a case-insensitive literal. -/
def plainName (s : String) : Bool :=
  s.toList.all (fun c =>
    !([ '.', '*', '+', '?', '^', '$', '(', ')', '[', ']', '\\', '|' ].contains c))

/-- The source's tag resolution step
`Tag.findOneAndUpdate({ name: \x7b $regex: new RegExp("^name$", "i") \x7d },
\x7b $setOnInsert: \x7b name \x7d, $inc: \x7b questions: 1 \x7d \x7d,
\x7b upsert: true, new: true \x7d)`: the first document whose stored name the
pattern matches gets its counter incremented; otherwise a fresh document
with the supplied casing and counter 1 is inserted.  Returns the resulting
document and the updated store. -/
def upsertTag (s : Store) (name : String) : Tag × Store :=
  match s.tags.find? (fun t => regexTestCI name t.name) with
  | some t =>
      let t' : Tag := { t with questions := t.questions + 1 }
      (t', { s with tags := s.tags.map (fun u => if u.id == t.id then t' else u) })
  | none =>
      let t' : Tag := ⟨s.nextId, name, 1, s.nextId⟩
      (t', { s with tags := s.tags ++ [t'], nextId := s.nextId + 1 })

/-- Failure switches for the store operations of the create path, one per
operation the source performs inside the transaction: the question insert
yielding no document, the k-th tag upsert throwing, the join-record bulk
insert throwing, the question update throwing, and the commit itself
throwing. -/
structure FailSpec where
  createFails : Bool
  tagFails : Option Nat
  insertManyFails : Bool
  updateFails : Bool
  commitFails : Bool
deriving DecidableEq, Repr

/-- The all-operations-succeed failure specification. -/
def noFail : FailSpec := ⟨false, none, false, false, false⟩

/-- The tag loop of `createQuestion`: resolve each supplied name in order
through `upsertTag`, collecting the resolved ids and the staged join
records.  The k-th iteration throws when `fs.tagFails = some k`. -/
def resolveTags (fs : FailSpec) (qid : Nat) :
    List String → Nat → Store → Except String (List Nat × List TQ × Store)
  | [], _, s => .ok ([], [], s)
  | t :: ts, k, s =>
      if fs.tagFails == some k then .error "StoreError" else
      let p := upsertTag s t
      match resolveTags fs qid ts (k + 1) p.2 with
      | .ok (ids, tqs, s2) => .ok (p.1.id :: ids, ⟨p.1.id, qid⟩ :: tqs, s2)
      | .error m => .error m

/-- The transaction body of `createQuestion` (source lines 37-78): insert
the question with empty tags, resolve every supplied tag name, bulk-insert
the join records, push the resolved ids onto the stored question, commit.
On success it returns the LOCAL in-memory question document (which the
source serializes for the response — its `tags` field was never updated)
together with the committed store. -/
def createBody (s : Store) (uid : Nat) (title content : String)
    (tagNames : List String) (fs : FailSpec) : Except String (QDoc × Store) :=
  if fs.createFails then .error "Failed to create question." else
  let q : QDoc := ⟨s.nextId, title, content, uid, [], 0⟩
  let s1 : Store := { s with questions := s.questions ++ [q], nextId := s.nextId + 1 }
  match resolveTags fs q.id tagNames 0 s1 with
  | .error m => .error m
  | .ok (tagIds, tqDocs, s2) =>
      if fs.insertManyFails then .error "StoreError" else
      let s3 : Store := { s2 with tagQuestions := s2.tagQuestions ++ tqDocs }
      if fs.updateFails then .error "StoreError" else
      let s4 : Store := { s3 with
        questions := s3.questions.map (fun u =>
          if u.id == q.id then { u with tags := u.tags ++ tagIds } else u) }
      if fs.commitFails then .error "StoreError" else
      .ok (q, s4)

/-- `createQuestion` (source lines 17-87): validate with authorization,
run the transaction body, commit on success; any thrown failure leaves the
transaction uncommitted, so ending the session discards the staged writes
and the base store is returned with the normalized error envelope. -/
def createQuestion (s : Store) (uid : Option Nat) (title content : String)
    (tagNames : List String) (fs : FailSpec) : Res QDoc × Store :=
  match actionCheck true uid, uid with
  | some m, _ => (.err m, s)
  | none, none => (.err "Unauthorized", s)
  | none, some u =>
      match createBody s u title content tagNames fs with
      | .ok (q, s') => (.ok q, s')
      | .error m => (.err m, s)

/-- An element of the edit path's working `question.tags` array.  After
`populate("tags")` the array holds full tag documents; the add loop of the
source then pushes raw ObjectIds (`existingTag._id`) onto the same array,
so the working array is heterogeneous. -/
inductive TagRef where
  | docRef (t : Tag)
  | idRef (i : Nat)
deriving DecidableEq, Repr

/-- The stored id an element of the working array depopulates to on
`question.save()`. -/
def TagRef.tid : TagRef → Nat
  | docRef t => t.id
  | idRef i => i

/-- SameValueZero comparison between an element of the populated
`question.tags` array (a tag document object or an ObjectId object) and a
lowercased tag name (a primitive string), as performed by the source's
`question.tags.includes(tag.toLowerCase())`: in JavaScript a primitive
string is never equal to an object, so the test is false for every
element. -/
def tagRefEqStr (_r : TagRef) (_s : String) : Bool :=
  false

/-- SameValueZero comparison between an element of the working
`question.tags` array and a populated document held in `tagsToRemove`, as
performed by the source's `tagsToRemove.includes(tagId)`: object equality
in JavaScript is reference identity.  The documents in `tagsToRemove` are
drawn by `filter` from the very populated array the working array started
from, and documents with equal id are the same stored tag (hence have the
same name and are filtered into `tagsToRemove` together), so reference
identity coincides with id equality for a document element; a raw
ObjectId pushed by the add loop is a fresh object, never identical to a
document. -/
def tagRefEqDoc (r : TagRef) (d : Tag) : Bool :=
  match r with
  | .docRef t => t.id == d.id
  | .idRef _ => false

/-- The conditional title/content step of `editQuestion` (source lines
120-124): when either supplied field differs from the stored one, both are
overwritten on the document and a save is issued; otherwise the step is
skipped.  Returns the document after the step and whether a save was
issued. -/
def updateTitleContent (q : QDoc) (title content : String) : QDoc × Bool :=
  if q.title != title || q.content != content then
    ({ q with title := title, content := content }, true)
  else (q, false)

/-- The add loop of `editQuestion` (source lines 137-155): resolve each
name of `tagsToAdd` through `upsertTag`, stage a join record for it, and
push its raw id onto the working tags array.  (`findOneAndUpdate` with
`upsert: true, new: true` always yields a document, so the source's
`if (existingTag)` guard is always taken.) -/
def addTags (qid : Nat) : List String → Store → List TagRef →
    Store × List TQ × List TagRef
  | [], s, etags => (s, [], etags)
  | t :: ts, s, etags =>
      let p := upsertTag s t
      let r := addTags qid ts p.2 (etags ++ [TagRef.idRef p.1.id])
      (r.1, ⟨p.1.id, qid⟩ :: r.2.1, r.2.2)

/-- `question.save()`: persist the in-memory document over the stored one
with the same id. -/
def saveStage (s : Store) (qid : Nat) (q : QDoc) : Store :=
  { s with questions := s.questions.map (fun u => if u.id == qid then q else u) }

/-- The conditional save of the title/content step: issued only when the
step rewrote the fields. -/
def condSaveStage (s : Store) (qid : Nat) (q : QDoc) (issued : Bool) : Store :=
  if issued then saveStage s qid q else s

/-- The remove block's store writes (source lines 158-170): when
`tagsToRemove` is non-empty, `Tag.updateMany` decrements the counter of
every tag whose id is in `tagIdsToRemove`, and `TagQuestion.deleteMany`
deletes every join record of this question whose tag id is in
`tagIdsToRemove`. -/
def removeStage (s : Store) (qid : Nat) (rmTags : List Tag) : Store :=
  if rmTags.length > 0 then
    let rmIds : List Nat := rmTags.map (fun t => t.id)
    { s with
      tags := s.tags.map (fun t =>
        if rmIds.contains t.id then { t with questions := t.questions - 1 } else t),
      tagQuestions := s.tagQuestions.filter (fun tq =>
        !(rmIds.contains tq.tag && tq.question == qid)) }
  else s

/-- The bulk insert of the staged join records (source lines 178-180),
issued only when some were staged. -/
def insertTQStage (s : Store) (tqs : List TQ) : Store :=
  if tqs.length > 0 then { s with tagQuestions := s.tagQuestions ++ tqs } else s

/-- The success path of `editQuestion` after the existence and ownership
checks (source lines 119-182): conditionally update title/content,
compute `tagsToAdd` and `tagsToRemove` exactly as the source's two
filters do, run the add loop, apply the remove block (counter decrements,
bulk join-record delete, working-array filter), bulk-insert the staged
join records, and finally save the document, depopulating the working
tags array to ids.  Returns the saved document (which the source
serializes for the response) and the resulting store.

The intermediate save issued by the title/content step persists the
document as loaded (its stored tags unchanged); since the remaining steps
of this deterministic path cannot throw, that intermediate state is
always superseded by the final save. -/
def editStage (s : Store) (qid : Nat) (q : QDoc) (title content : String)
    (tagNames : List String) : QDoc × Store :=
  let popTags : List Tag := q.tags.filterMap (fun i => findTag s i)
  let utc := updateTitleContent q title content
  let s1 : Store := condSaveStage s qid utc.1 utc.2
  let etags0 : List TagRef := popTags.map TagRef.docRef
  let tagsToAdd : List String :=
    tagNames.filter (fun t => !(etags0.any (fun r => tagRefEqStr r (strLower t))))
  let tagsToRemove : List Tag :=
    popTags.filter (fun t => !(tagNames.contains (strLower t.name)))
  let a := addTags qid tagsToAdd s1 etags0
  let s3 : Store := removeStage a.1 qid tagsToRemove
  let etags2 : List TagRef :=
    if tagsToRemove.length > 0 then
      a.2.2.filter (fun r => !(tagsToRemove.any (fun d => tagRefEqDoc r d)))
    else a.2.2
  let s4 : Store := insertTQStage s3 a.2.1
  let q2 : QDoc := { utc.1 with tags := etags2.map TagRef.tid }
  (q2, saveStage s4 qid q2)

/-- The transaction body of `editQuestion` (source lines 109-183): load
the question, fail if it does not exist, fail if the caller does not own
it, otherwise run the success path.  (The source populates the tags
before the ownership check; populating has no store effect, so it lives
in `editStage`.) -/
def editBody (s : Store) (uid : Nat) (qid : Nat) (title content : String)
    (tagNames : List String) : Except String (QDoc × Store) :=
  match findQ s qid with
  | none => .error "Error not found"
  | some q =>
      if q.author != uid then .error "Unauthorized"
      else .ok (editStage s qid q title content tagNames)

/-- `editQuestion` (source lines 89-192): validate with authorization, run
the transaction body, commit on success; any thrown failure aborts the
transaction and the base store is returned with the normalized error
envelope. -/
def editQuestion (s : Store) (uid : Option Nat) (qid : Nat)
    (title content : String) (tagNames : List String) : Res QDoc × Store :=
  match actionCheck true uid, uid with
  | some m, _ => (.err m, s)
  | none, none => (.err "Unauthorized", s)
  | none, some u =>
      match editBody s u qid title content tagNames with
      | .ok (q, s') => (.ok q, s')
      | .error m => (.err m, s)

/-- `getQuestion` (source lines 194-223): validate with authorization
(`authorize: true` even though this is a pure read), then fetch the
question by id; a missing question is a thrown `"Question not Found."`.
The read path has no transaction and performs no writes, so only the
envelope is returned. -/
def getQuestion (s : Store) (uid : Option Nat) (qid : Nat) : Res QDoc :=
  match actionCheck true uid, uid with
  | some m, _ => .err m
  | none, none => .err "Unauthorized"
  | none, some _ =>
      match findQ s qid with
      | none => .err "Question not Found."
      | some q => .ok q

/-- Case-insensitive substring test, the semantics of the source's
unanchored `\x7b $regex: query, $options: "i" \x7d` name filter for a
metacharacter-free query. -/
def substrCI (needle hay : String) : Bool :=
  let n := (strLower needle).toList
  let h := (strLower hay).toList
  (List.range (h.length + 1)).any (fun i => n.isPrefixOf (h.drop i))

/-- Insert into a list sorted by the boolean comparator `le`. -/
def insertLe (le : Tag → Tag → Bool) (x : Tag) : List Tag → List Tag
  | [] => [x]
  | y :: ys => if le x y then x :: y :: ys else y :: insertLe le x ys

/-- Sort by the boolean comparator `le` (insertion sort; only the ordering
and length of the result matter to the claims). -/
def sortByLe (le : Tag → Tag → Bool) : List Tag → List Tag
  | [] => []
  | x :: xs => insertLe le x (sortByLe le xs)

/-- The sort criteria switch of `getTags` (source lines 64-84):
`popular → questions descending`, `recent → createdAt descending`,
`oldest → createdAt ascending`, `name → name ascending`, anything else →
same as popular. -/
def tagSortLe (filter : String) : Tag → Tag → Bool :=
  if filter == "recent" then fun a b => b.createdAt ≤ a.createdAt
  else if filter == "oldest" then fun a b => a.createdAt ≤ b.createdAt
  else if filter == "name" then fun a b => !(b.name < a.name)
  else fun a b => b.questions ≤ a.questions

/-- The tags matching the optional query (the set both `countDocuments`
and `find` of the source run over): absent or empty query means no text
restriction (JavaScript's `if (query)` treats the empty string as
absent). -/
def matchingTags (s : Store) (query : Option String) : List Tag :=
  match query with
  | none => s.tags
  | some q => if q == "" then s.tags else s.tags.filter (fun t => substrCI q t.name)

/-- The result of `getTags`: the returned page and the `isNext` flag. -/
structure TagPage where
  tags : List Tag
  isNext : Bool
deriving DecidableEq, Repr

/-- `getTags` (src/lib/actions/tag.action.ts lines 23-108):
`skip = (page-1)*pageSize`, `limit = pageSize`, count the matching tags,
return the sorted matching tags from `skip` limited to `limit`, and
`isNext = totalTags > skip + tags.length`. -/
def getTags (s : Store) (query : Option String) (filter : String)
    (page pageSize : Nat) : TagPage :=
  let skip := (page - 1) * pageSize
  let limit := pageSize
  let matched := matchingTags s query
  let items := ((sortByLe (tagSortLe filter) matched).drop skip).take limit
  { tags := items, isNext := decide (matched.length > skip + items.length) }

/-- The empty store. -/
def emptyStore : Store := ⟨[], [], [], 0⟩

/-- A store holding one tag `rust` (counter 1), one question (id 10,
author 7) tagged with it, and the matching join record. -/
def rustStore : Store :=
  ⟨[⟨1, "rust", 1, 0⟩], [⟨10, "T", "C", 7, [1], 0⟩], [⟨1, 10⟩], 20⟩

/-- A store holding one tag named `axb` with counter 5. -/
def axbStore : Store := ⟨[⟨0, "axb", 5, 0⟩], [], [], 1⟩

/-- A store holding one question (id 10) owned by author 2. -/
def otherAuthorStore : Store := ⟨[], [⟨10, "T", "C", 2, [], 0⟩], [], 20⟩

/-- A store holding fifteen tags and nothing else. -/
def fifteenTags : Store :=
  ⟨(List.range 15).map (fun i => ⟨i, "t", 0, i⟩), [], [], 15⟩

/-- A failure specification whose only failing operation is the commit. -/
def commitFail : FailSpec := ⟨false, none, false, false, true⟩

theorem upsertTag_questions (s : Store) (n : String) :
    (upsertTag s n).2.questions = s.questions := by
  unfold upsertTag
  split <;> rfl

theorem addTags_questions (qid : Nat) (ts : List String) (s : Store)
    (etags : List TagRef) :
    (addTags qid ts s etags).1.questions = s.questions := by
  induction ts generalizing s etags with
  | nil => rfl
  | cons t ts ih =>
    simp only [addTags]
    rw [ih, upsertTag_questions]

theorem removeStage_questions (s : Store) (qid : Nat) (rm : List Tag) :
    (removeStage s qid rm).questions = s.questions := by
  unfold removeStage
  split <;> rfl

theorem insertTQStage_questions (s : Store) (tqs : List TQ) :
    (insertTQStage s tqs).questions = s.questions := by
  unfold insertTQStage
  split <;> rfl

theorem findQ_congr (s s' : Store) (qid : Nat) (h : s.questions = s'.questions) :
    findQ s qid = findQ s' qid := by
  unfold findQ
  rw [h]

theorem find?_replace (l : List QDoc) (qid : Nat) (nq : QDoc) (h : nq.id = qid) :
    (l.map (fun u => if u.id == qid then nq else u)).find? (fun u => u.id == qid)
      = (l.find? (fun u => u.id == qid)).map (fun _ => nq) := by
  induction l with
  | nil => rfl
  | cons x xs ih =>
    by_cases hx : x.id = qid
    · simp [List.find?_cons_of_pos, hx, h]
    · simp only [List.map_cons]
      rw [List.find?_cons_of_neg, List.find?_cons_of_neg, ih]
      · simp [hx]
      · simp [hx]

theorem findQ_saveStage (s : Store) (qid : Nat) (nq : QDoc) (h : nq.id = qid) :
    findQ (saveStage s qid nq) qid = (findQ s qid).map (fun _ => nq) := by
  unfold findQ saveStage
  exact find?_replace s.questions qid nq h

theorem findQ_id (s : Store) (qid : Nat) (q : QDoc) (h : findQ s qid = some q) :
    q.id = qid := by
  have := List.find?_some h
  simpa using this

theorem updateTitleContent_author (q : QDoc) (t c : String) :
    (updateTitleContent q t c).1.author = q.author := by
  unfold updateTitleContent
  split <;> rfl

theorem updateTitleContent_views (q : QDoc) (t c : String) :
    (updateTitleContent q t c).1.views = q.views := by
  unfold updateTitleContent
  split <;> rfl

theorem updateTitleContent_id (q : QDoc) (t c : String) :
    (updateTitleContent q t c).1.id = q.id := by
  unfold updateTitleContent
  split <;> rfl

theorem editStage_author (s : Store) (qid : Nat) (q : QDoc) (t c : String)
    (gs : List String) :
    (editStage s qid q t c gs).1.author = q.author :=
  updateTitleContent_author q t c

theorem editStage_views (s : Store) (qid : Nat) (q : QDoc) (t c : String)
    (gs : List String) :
    (editStage s qid q t c gs).1.views = q.views :=
  updateTitleContent_views q t c

theorem editStage_id (s : Store) (qid : Nat) (q : QDoc) (t c : String)
    (gs : List String) :
    (editStage s qid q t c gs).1.id = q.id :=
  updateTitleContent_id q t c

theorem findQ_stages (sA : Store) (qid : Nat) (rm : List Tag) (tqs : List TQ)
    (adds : List String) (etags : List TagRef) :
    findQ (insertTQStage (removeStage (addTags qid adds sA etags).1 qid rm) tqs) qid
      = findQ sA qid := by
  apply findQ_congr
  rw [insertTQStage_questions, removeStage_questions, addTags_questions]

theorem findQ_condSaveStage (s : Store) (qid : Nat) (nq : QDoc) (b : Bool)
    (h : nq.id = qid) :
    findQ (condSaveStage s qid nq b) qid
      = if b then (findQ s qid).map (fun _ => nq) else findQ s qid := by
  unfold condSaveStage
  cases b
  · rfl
  · simp [findQ_saveStage s qid nq h]

theorem editStage_findQ (s : Store) (qid : Nat) (q : QDoc) (t c : String)
    (gs : List String) (hq : findQ s qid = some q) :
    findQ (editStage s qid q t c gs).2 qid = some (editStage s qid q t c gs).1 := by
  have hid : q.id = qid := findQ_id s qid q hq
  simp only [editStage]
  rw [findQ_saveStage]
  · rw [findQ_stages, findQ_condSaveStage]
    · rw [hq]
      cases hU : (updateTitleContent q t c).2 <;> rfl
    · rw [updateTitleContent_id]
      exact hid
  · show (updateTitleContent q t c).1.id = qid
    rw [updateTitleContent_id]
    exact hid

theorem editBody_eq_of_found (s : Store) (u qid : Nat) (t c : String)
    (gs : List String) (q : QDoc) (hq : findQ s qid = some q) :
    editBody s u qid t c gs
      = if q.author != u then .error "Unauthorized"
        else .ok (editStage s qid q t c gs) := by
  unfold editBody
  rw [hq]

theorem length_insertLe (le : Tag → Tag → Bool) (x : Tag) (l : List Tag) :
    (insertLe le x l).length = l.length + 1 := by
  induction l with
  | nil => rfl
  | cons y ys ih =>
    unfold insertLe
    split
    · simp
    · simp [ih]

theorem length_sortByLe (le : Tag → Tag → Bool) (l : List Tag) :
    (sortByLe le l).length = l.length := by
  induction l with
  | nil => rfl
  | cons x xs ih => simp [sortByLe, length_insertLe, ih]

/-- C1: every failing execution of `createQuestion` — any combination of
store operations throwing after the transaction starts, as well as the
precondition failure — leaves the store exactly as it was before the
call: no tag counter, join record, or question field differs from its
pre-call value, because the uncommitted transaction's staged writes are
discarded before the normalized error envelope is returned. -/
theorem createQuestion_failure_atomic (s : Store) (uid : Option Nat)
    (title content : String) (tagNames : List String) (fs : FailSpec)
    (h : (createQuestion s uid title content tagNames fs).1.isErr = true) :
    (createQuestion s uid title content tagNames fs).2 = s := by
  cases uid with
  | none => rfl
  | some u =>
    have e : createQuestion s (some u) title content tagNames fs
        = (match createBody s u title content tagNames fs with
           | .ok (q, s') => (Res.ok q, s')
           | .error m => (Res.err m, s)) := rfl
    rw [e] at h ⊢
    cases hb : createBody s u title content tagNames fs with
    | ok p =>
      obtain ⟨q, s'⟩ := p
      rw [hb] at h
      simp [Res.isErr] at h
    | error m => simp only [hb]

/-- C1 witness: a concrete failing execution (the commit throws) returns
an error envelope and leaves the store untouched. -/
theorem createQuestion_failure_atomic_witness :
    (createQuestion emptyStore (some 1) "t" "c" ["AI"] commitFail).1.isErr = true
      ∧ (createQuestion emptyStore (some 1) "t" "c" ["AI"] commitFail).2 = emptyStore :=
  ⟨rfl, createQuestion_failure_atomic emptyStore (some 1) "t" "c" ["AI"] commitFail rfl⟩

/-- C2: evaluation of `editQuestion` at the failing input.  A question
tagged `rust` (counter 1, one join record) is edited by its owner with
the unchanged desired tag set `["rust"]` (so C = D and the claim demands
an unchanged store).  Because the source compares populated tag documents
against a lowercased string, `tagsToAdd` wrongly contains `rust` again:
the committed store holds the `rust` counter at 2, a duplicate join
record, and the duplicated tag id on the question — refuting the claimed
set-difference synchronization. -/
theorem editQuestion_resync_duplicates :
    editQuestion rustStore (some 7) 10 "T" "C" ["rust"]
      = (.ok ⟨10, "T", "C", 7, [1, 1], 0⟩,
         ⟨[⟨1, "rust", 2, 0⟩], [⟨10, "T", "C", 7, [1, 1], 0⟩],
          [⟨1, 10⟩, ⟨1, 10⟩], 20⟩) := rfl

/-- C3 counterexample: creating a question with tags
`["Python", "python", "AI"]` leaves the `Python` tag's counter at 2, not
1 as the claim states — the second occurrence matches the first tag
case-insensitively and increments it again. -/
theorem createQuestion_duplicate_names_cx :
    ((createQuestion emptyStore (some 1) "t" "c" ["Python", "python", "AI"]
          noFail).2.tags.map (fun t => (t.name, t.questions)))
        = [("Python", 2), ("AI", 1)]
      ∧ ¬(((createQuestion emptyStore (some 1) "t" "c" ["Python", "python", "AI"]
          noFail).2.tags.map (fun t => (t.name, t.questions)))
        = [("Python", 1), ("AI", 1)]) := by
  constructor
  · rfl
  · decide

/-- C3 amended: creating a question with tags `["Python", "python", "AI"]`
results in exactly two tag entities — `Python` with the casing of the
first occurrence and `AI` — with `AI`'s counter incremented by exactly 1,
but `Python`'s counter incremented by 2 (once per supplied occurrence)
and two join records recorded for it. -/
theorem createQuestion_duplicate_names_amended :
    (createQuestion emptyStore (some 1) "t" "c" ["Python", "python", "AI"]
          noFail).2.tags
        = [⟨1, "Python", 2, 1⟩, ⟨2, "AI", 1, 2⟩]
      ∧ (createQuestion emptyStore (some 1) "t" "c" ["Python", "python", "AI"]
          noFail).2.tagQuestions
        = [⟨1, 0⟩, ⟨1, 0⟩, ⟨2, 0⟩] := by
  constructor <;> rfl

/-- C4: evaluation of `editQuestion` at the failing input of C2: after the
committed edit, two live join records exist for the pair
(tag `rust`, question 10), refuting the at-most-one-join-record-per-pair
invariant. -/
theorem joinCount_pair_exceeds_one :
    joinCount (editQuestion rustStore (some 7) 10 "T" "C" ["rust"]).2 1 10 = 2
      ∧ ¬(joinCount (editQuestion rustStore (some 7) 10 "T" "C" ["rust"]).2 1 10 ≤ 1) := by
  constructor
  · rfl
  · decide

/-- C5: evaluation of `createQuestion` at the failing input: after a
successful create with tag list `["AI"]`, the stored question's tags
field holds the resolved tag id, but the returned envelope carries the
local pre-update document whose tags field is empty — refuting the claim
that the returned value reflects the final resolved tag ids. -/
theorem createQuestion_stale_return_tags :
    (createQuestion emptyStore (some 1) "t" "c" ["AI"] noFail).1
        = .ok ⟨0, "t", "c", 1, [], 0⟩
      ∧ findQ (createQuestion emptyStore (some 1) "t" "c" ["AI"] noFail).2 0
        = some ⟨0, "t", "c", 1, [1], 0⟩ := by
  constructor <;> rfl

/-- C6: evaluation of the tag resolution step at the failing input: the
supplied name `a.b` is interpolated unescaped into the anchored
case-insensitive pattern, so it matches the stored tag `axb` (the `.`
acting as a wildcard) and increments its counter, although the two names
are not equal ignoring letter case — refuting that resolve matches if and
only if the stored name equals the supplied name ignoring case for names
containing regex metacharacters. -/
theorem upsertTag_regex_metachar_match :
    (upsertTag axbStore "a.b").2.tags = [⟨0, "axb", 6, 0⟩]
      ∧ ¬(strLower "a.b" = strLower "axb") := by
  constructor
  · rfl
  · decide

/-- C7: whenever the loaded question's author differs from the caller's
identity, `editQuestion` returns the normalized error envelope of the
thrown `Unauthorized` failure and the store is exactly its pre-call
value: no question field, tag counter, or join record is mutated. -/
theorem editQuestion_ownership (s : Store) (u qid : Nat)
    (title content : String) (tagNames : List String) (q : QDoc)
    (hq : findQ s qid = some q) (ha : q.author ≠ u) :
    editQuestion s (some u) qid title content tagNames
      = (.err "Unauthorized", s) := by
  unfold editQuestion editBody
  simp [actionCheck, hq, bne_iff_ne, ha]

/-- C7 witness: a concrete call by caller 1 on a question owned by
author 2 yields the error envelope and the unchanged store. -/
theorem editQuestion_ownership_witness :
    findQ otherAuthorStore 10 = some ⟨10, "T", "C", 2, [], 0⟩
      ∧ (QDoc.author ⟨10, "T", "C", 2, [], 0⟩ ≠ 1)
      ∧ editQuestion otherAuthorStore (some 1) 10 "T" "C" []
        = (.err "Unauthorized", otherAuthorStore) :=
  ⟨rfl, by decide,
    editQuestion_ownership otherAuthorStore 1 10 "T" "C" []
      ⟨10, "T", "C", 2, [], 0⟩ rfl (by decide)⟩

/-- C8: for every store, query, filter, page p ≥ 1 and pageSize s ≥ 1,
`getTags` returns exactly `min s (N - (p-1)*s)` items (truncated
subtraction, i.e. `min(s, max(0, N - (p-1)*s))`) where N is the number of
matching tags, and `isNext = (N > (p-1)*s + returnedCount)`; in
particular page 2 with pageSize 10 over 15 matches returns 5 items with
`isNext = false`. -/
theorem getTags_pagination :
    (∀ (s : Store) (query : Option String) (filter : String) (p size : Nat),
        1 ≤ p → 1 ≤ size →
        (getTags s query filter p size).tags.length
            = min size ((matchingTags s query).length - (p - 1) * size)
          ∧ ((getTags s query filter p size).isNext
            = decide ((matchingTags s query).length
                > (p - 1) * size + (getTags s query filter p size).tags.length)))
      ∧ (getTags fifteenTags none "popular" 2 10).tags.length = 5
      ∧ (getTags fifteenTags none "popular" 2 10).isNext = false := by
  refine ⟨fun s query filter p size _ _ => ?_, by rfl, by rfl⟩
  have hlen : (getTags s query filter p size).tags.length
      = min size ((matchingTags s query).length - (p - 1) * size) := by
    simp [getTags, List.length_take, List.length_drop, length_sortByLe]
  exact ⟨hlen, by
    simp [getTags, List.length_take, List.length_drop, length_sortByLe]⟩

/-- C8 witness: the general count and `isNext` formulas instantiated at
page 2, pageSize 10 over the fifteen-tag store. -/
theorem getTags_pagination_witness :
    (1 ≤ 2 ∧ 1 ≤ 10)
      ∧ (getTags fifteenTags none "popular" 2 10).tags.length
        = min 10 ((matchingTags fifteenTags none).length - (2 - 1) * 10) :=
  ⟨⟨by decide, by decide⟩,
    (getTags_pagination.1 fifteenTags none "popular" 2 10
      (by decide) (by decide)).1⟩

/-- C9: `editQuestion` never changes the stored question's `author` (nor
its `views`, the representative field outside title/content/tags): for
every call, successful or failed, the question stored under the edited id
afterwards has the same author and views as before; and when the supplied
title and content both equal the stored values, the title/content update
step leaves the document unchanged and issues no save. -/
theorem editQuestion_frame :
    (∀ (s : Store) (uid : Option Nat) (qid : Nat) (title content : String)
        (tagNames : List String) (q q' : QDoc),
        findQ s qid = some q →
        findQ (editQuestion s uid qid title content tagNames).2 qid = some q' →
        q'.author = q.author ∧ q'.views = q.views)
      ∧ (∀ (q : QDoc) (title content : String),
          q.title = title → q.content = content →
          updateTitleContent q title content = (q, false)) := by
  constructor
  · intro s uid qid t c gs q q' hq hq'
    cases uid with
    | none =>
      have e : (editQuestion s none qid t c gs).2 = s := rfl
      rw [e, hq] at hq'
      cases hq'
      exact ⟨rfl, rfl⟩
    | some u =>
      have e : editQuestion s (some u) qid t c gs
          = (match editBody s u qid t c gs with
             | .ok (q2, s') => (Res.ok q2, s')
             | .error m => (Res.err m, s)) := rfl
      rw [e] at hq'
      cases hb : editBody s u qid t c gs with
      | error m =>
        simp only [hb] at hq'
        rw [hq] at hq'
        cases hq'
        exact ⟨rfl, rfl⟩
      | ok p =>
        obtain ⟨q2, s5⟩ := p
        simp only [hb] at hq'
        rw [editBody_eq_of_found s u qid t c gs q hq] at hb
        by_cases hauth : (q.author != u) = true
        · rw [if_pos hauth] at hb
          cases hb
        · rw [if_neg hauth] at hb
          injection hb with hb
          have hb2 : (editStage s qid q t c gs).2 = s5 := by rw [hb]
          rw [← hb2] at hq'
          rw [editStage_findQ s qid q t c gs hq] at hq'
          cases hq'
          exact ⟨editStage_author s qid q t c gs, editStage_views s qid q t c gs⟩
  · intro q t c h1 h2
    subst h1
    subst h2
    simp [updateTitleContent]

/-- C9 witness: both parts instantiated concretely — the edit of C2's
scenario preserves author and views of the stored question, and the
title/content step with unchanged fields is a skipped no-op. -/
theorem editQuestion_frame_witness :
    (findQ rustStore 10 = some ⟨10, "T", "C", 7, [1], 0⟩
      ∧ findQ (editQuestion rustStore (some 7) 10 "T" "C" ["rust"]).2 10
        = some ⟨10, "T", "C", 7, [1, 1], 0⟩
      ∧ (QDoc.author ⟨10, "T", "C", 7, [1, 1], 0⟩
            = QDoc.author ⟨10, "T", "C", 7, [1], 0⟩
          ∧ QDoc.views ⟨10, "T", "C", 7, [1, 1], 0⟩
            = QDoc.views ⟨10, "T", "C", 7, [1], 0⟩))
      ∧ ((QDoc.title ⟨10, "T", "C", 7, [1], 0⟩ = "T"
          ∧ QDoc.content ⟨10, "T", "C", 7, [1], 0⟩ = "C")
        ∧ updateTitleContent ⟨10, "T", "C", 7, [1], 0⟩ "T" "C"
          = (⟨10, "T", "C", 7, [1], 0⟩, false)) :=
  ⟨⟨rfl, rfl,
      editQuestion_frame.1 rustStore (some 7) 10 "T" "C" ["rust"]
        ⟨10, "T", "C", 7, [1], 0⟩ ⟨10, "T", "C", 7, [1, 1], 0⟩ rfl rfl⟩,
    ⟨rfl, rfl⟩,
    editQuestion_frame.2 ⟨10, "T", "C", 7, [1], 0⟩ "T" "C" rfl rfl⟩

/-- C10: `getQuestion`, although a pure read, validates with
`authorize: true`: for every call without a caller identity it returns
the error envelope, and the result is independent of the store — the
fetch is never reached. -/
theorem getQuestion_requires_identity (s1 s2 : Store) (qid : Nat) :
    getQuestion s1 none qid = .err "Unauthorized"
      ∧ getQuestion s1 none qid = getQuestion s2 none qid :=
  ⟨rfl, rfl⟩

end DevFlow
